import Mathlib

/-!
Verification of the CTF scoring backend (src/main.py, src/schemas.py).

The data model follows src/schemas.py; the endpoint logic follows
src/main.py. The document store itself (database.py) is not part of the
sources, so it is modelled from the spec: three collections held as lists
in insertion order, with Mongo-style first-match lookup, single-document
update, `$inc` and `$addToSet` semantics, and opaque string identifiers
generated by the store (passed here as explicit parameters).
-/

/-- A user document (schemas.py, class Ctfuser), with the store's `_id`
made explicit. `score` defaults to 0 and `solved` to the empty list. -/
structure Ctfuser where
  id : String
  username : String
  email : String
  password : String
  score : Int
  solved : List String
deriving Repr, DecidableEq

/-- A challenge document (schemas.py, class Challenge), with `_id` explicit. -/
structure Challenge where
  id : String
  title : String
  category : String
  difficulty : String
  points : Int
  description : String
  flag : String
deriving Repr, DecidableEq

/-- A submission document (schemas.py, class Submission). -/
structure Submission where
  user_id : String
  challenge_id : String
  flag : String
  correct : Bool
deriving Repr, DecidableEq

/-- Modelled from the spec: the document store (database.py is not in the
sources). Three named collections, each a list in insertion order. -/
structure Store where
  users : List Ctfuser
  challenges : List Challenge
  submissions : List Submission
deriving Repr, DecidableEq

/-- Mongo `find_one({"_id": oid(uid)})` on the user collection: first match. -/
def findUser (s : Store) (uid : String) : Option Ctfuser :=
  s.users.find? (fun u => u.id == uid)

/-- Mongo `find_one({"_id": oid(cid)})` on the challenge collection. -/
def findChallenge (s : Store) (cid : String) : Option Challenge :=
  s.challenges.find? (fun c => c.id == cid)

/-- Mongo `update_one({"_id": oid(uid)}, ...)`: rewrite the first document
whose id matches, leave everything else in place. -/
def updateFirstUser : List Ctfuser → String → (Ctfuser → Ctfuser) → List Ctfuser
  | [], _, _ => []
  | u :: us, uid, f =>
    if u.id == uid then f u :: us else u :: updateFirstUser us uid f

/-- Mongo `$addToSet`: append the element unless it is already present. -/
def addToSet (l : List String) (x : String) : List String :=
  if x ∈ l then l else l ++ [x]

/-- Python `str.strip()`: drop leading and trailing whitespace, keeping the
interior intact. -/
def pyStrip (s : String) : String :=
  ⟨((s.data.dropWhile Char.isWhitespace).reverse.dropWhile
      Char.isWhitespace).reverse⟩

/-- The error taxonomy surfaced by the endpoints (HTTPException statuses
404, 400, 401 in main.py). -/
inductive ApiError where
  | notFound
  | conflict
  | unauthorized
deriving Repr, DecidableEq

/-- The body returned by POST /submit: the verdict and the user document
(`None` only if the post-update reload were to miss, mirroring
`to_str_id(None)` in main.py). -/
structure SubmitResult where
  correct : Bool
  user : Option Ctfuser
deriving Repr, DecidableEq

/-- POST /submit (main.py, `submit_flag`): load user and challenge (404 if
either is missing), compute `already` and `correct`, unconditionally append
a Submission with the raw flag text, and if the flag is correct and the
challenge not yet solved, `$inc` the score by the challenge's points,
`$addToSet` the challenge id, and reload the user. -/
def submit_flag (s : Store) (user_id challenge_id flag : String) :
    Except ApiError (SubmitResult × Store) :=
  match findUser s user_id, findChallenge s challenge_id with
  | some user, some ch =>
    let already := decide (challenge_id ∈ user.solved)
    let correct := (pyStrip flag) == ch.flag
    let sub : Submission := ⟨user_id, challenge_id, flag, correct⟩
    let s1 : Store := { s with submissions := s.submissions ++ [sub] }
    if correct && !already then
      let upd := fun u : Ctfuser =>
        { u with score := u.score + ch.points, solved := addToSet u.solved challenge_id }
      let s2 : Store := { s1 with users := updateFirstUser s1.users user_id upd }
      .ok (⟨correct, findUser s2 user_id⟩, s2)
    else
      .ok (⟨correct, some user⟩, s1)
  | _, _ => .error .notFound

/-- The store state after one /submit request: an HTTPException aborts the
request with the store untouched. -/
def submitStep (s : Store) (req : String × String × String) : Store :=
  match submit_flag s req.1 req.2.1 req.2.2 with
  | .ok (_, s') => s'
  | .error _ => s

/-- The store state after a finite sequence of sequential /submit requests. -/
def runSubmits (s : Store) (reqs : List (String × String × String)) : Store :=
  reqs.foldl submitStep s

/-- POST /auth/register (main.py, `register`): 400 Conflict if some user
already has the email (exact string match), otherwise insert a user with
score 0 and empty solved list and return the document reloaded by its id.
`newId` stands for the ObjectId generated by the store on insertion. -/
def register (s : Store) (username email password newId : String) :
    Except ApiError (Option Ctfuser × Store) :=
  if s.users.any (fun u => u.email == email) then
    .error .conflict
  else
    .ok (findUser
        { s with users := s.users ++ [⟨newId, username, email, password, 0, []⟩] }
        newId,
      { s with users := s.users ++ [⟨newId, username, email, password, 0, []⟩] })

/-- A challenge document as rendered by the catalog endpoints, which query
with the projection `{"flag": 0}`: every field except the flag. -/
structure ChallengeSummary where
  id : String
  title : String
  category : String
  difficulty : String
  points : Int
  description : String
deriving Repr, DecidableEq

/-- The `{"flag": 0}` projection applied to one challenge document. -/
def summarize (c : Challenge) : ChallengeSummary :=
  ⟨c.id, c.title, c.category, c.difficulty, c.points, c.description⟩

/-- GET /challenges (main.py, `list_challenges`): all challenges in store
order, flag omitted. -/
def list_challenges (s : Store) : List ChallengeSummary :=
  s.challenges.map summarize

/-- GET /challenges/{id} (main.py, `get_challenge`): the matching challenge
with flag omitted, or 404. -/
def get_challenge (s : Store) (cid : String) : Except ApiError ChallengeSummary :=
  match findChallenge s cid with
  | some c => .ok (summarize c)
  | none => .error .notFound

/-- A user document under the `{"password": 0}` projection used by
GET /stats. -/
structure UserPublic where
  id : String
  username : String
  email : String
  score : Int
  solved : List String
deriving Repr, DecidableEq

/-- The `{"password": 0}` projection on one user document. -/
def dropPassword (u : Ctfuser) : UserPublic :=
  ⟨u.id, u.username, u.email, u.score, u.solved⟩

/-- A leaderboard row: a projected user augmented with `solves = len(solved)`. -/
structure LeaderboardEntry where
  id : String
  username : String
  email : String
  score : Int
  solved : List String
  solves : Nat
deriving Repr, DecidableEq

/-- GET /stats (main.py, `stats`): users fetched without passwords, sorted
by score descending (`sort("score", -1)`, a stable sort), truncated by
Mongo `limit` (0 means no limit), each annotated with its solve count. -/
def stats (s : Store) (limit : Nat) : List LeaderboardEntry :=
  let ranked := (s.users.map dropPassword).mergeSort
    (fun a b => decide (b.score ≤ a.score))
  let limited := if limit = 0 then ranked else ranked.take limit
  limited.map (fun u => ⟨u.id, u.username, u.email, u.score, u.solved, u.solved.length⟩)

/-- The first demo challenge of the startup seed (main.py, `seed_challenges`);
its id is the ObjectId generated by the store. -/
def demoChallenge1 (id : String) : Challenge :=
  ⟨id, "Warmup: Hello Flag", "Misc", "Easy", 50,
   "Temukan flag tersembunyi di deskripsi ini. Format: CTF\x7bhello_world\x7d",
   "CTF\x7bhello_world\x7d"⟩

/-- The second demo challenge of the startup seed. -/
def demoChallenge2 (id : String) : Challenge :=
  ⟨id, "Crypto: Caesar Shift", "Crypto", "Easy", 100,
   "Pesan dienkripsi dengan pergeseran 3. Pecahkan untuk menemukan flag: CTF\x7b...\x7d",
   "CTF\x7bcaesar_3_shift\x7d"⟩

/-- The third demo challenge of the startup seed. -/
def demoChallenge3 (id : String) : Challenge :=
  ⟨id, "Web: Cookie Monster", "Web", "Medium", 200,
   "Baca cookie dengan benar untuk mendapatkan flag.",
   "CTF\x7bcookie_finder\x7d"⟩

/-- Startup hook (main.py, `seed_challenges`): if `count_documents({})` on
the challenge collection is zero, insert the three demo challenges;
otherwise do nothing. `id1 id2 id3` are the store-generated ids. -/
def seed_challenges (s : Store) (id1 id2 id3 : String) : Store :=
  if s.challenges.length = 0 then
    { s with challenges :=
        s.challenges ++ [demoChallenge1 id1, demoChallenge2 id2, demoChallenge3 id3] }
  else
    s

/-- The points of all challenges whose id lies in the given solved list,
summed in store order. -/
def solvedPoints (chs : List Challenge) (solved : List String) : Int :=
  ((chs.filter (fun c => decide (c.id ∈ solved))).map (fun c => c.points)).sum

/-- The scoring invariant for the user record found under `uid`: its score
is the sum of the points of the challenges its solved list names, and the
solved list has no duplicates. -/
def userInvariant (s : Store) (uid : String) : Prop :=
  ∀ u, findUser s uid = some u →
    u.score = solvedPoints s.challenges u.solved ∧ u.solved.Nodup

/-! ### Lemmas about the store operations -/

theorem length_updateFirstUser (l : List Ctfuser) (uid : String)
    (f : Ctfuser → Ctfuser) :
    (updateFirstUser l uid f).length = l.length := by
  induction l with
  | nil => rfl
  | cons u us ih => by_cases hb : (u.id == uid) = true <;>
      simp [updateFirstUser, hb, ih]

theorem find?_updateFirstUser_self (l : List Ctfuser) (uid : String)
    (f : Ctfuser → Ctfuser) (hf : ∀ u, (f u).id = u.id) :
    (updateFirstUser l uid f).find? (fun u => u.id == uid) =
      (l.find? (fun u => u.id == uid)).map f := by
  induction l with
  | nil => rfl
  | cons u us ih =>
    by_cases hb : (u.id == uid) = true
    · have hb2 : ((f u).id == uid) = true := by rw [hf u]; exact hb
      simp [updateFirstUser, hb, hb2, List.find?_cons_of_pos]
    · have hb2 : ¬ ((u.id == uid) = true) := hb
      simp [updateFirstUser, hb, List.find?_cons_of_neg, ih]

theorem find?_updateFirstUser_other (l : List Ctfuser) (uid uid' : String)
    (f : Ctfuser → Ctfuser) (hf : ∀ u, (f u).id = u.id) (hne : uid' ≠ uid) :
    (updateFirstUser l uid' f).find? (fun u => u.id == uid) =
      l.find? (fun u => u.id == uid) := by
  induction l with
  | nil => rfl
  | cons u us ih =>
    by_cases hb : (u.id == uid') = true
    · have hcid : u.id = uid' := by simpa using hb
      have h1 : (u.id == uid) = false := by
        simp [hcid]
        exact hne
      have h2 : ((f u).id == uid) = false := by rw [hf u]; exact h1
      simp [updateFirstUser, hb, h1, h2]
    · simp only [updateFirstUser, if_neg hb]
      by_cases h1 : (u.id == uid) = true
      · simp [h1]
      · simp [h1, ih]

theorem getElem?_updateFirstUser (l : List Ctfuser) (uid : String)
    (f : Ctfuser → Ctfuser) (i : Nat) (u : Ctfuser)
    (hu : l[i]? = some u) (hne : u.id ≠ uid) :
    (updateFirstUser l uid f)[i]? = some u := by
  induction l generalizing i with
  | nil => simp at hu
  | cons a as ih =>
    by_cases hb : (a.id == uid) = true
    · cases i with
      | zero =>
        rw [List.getElem?_cons_zero] at hu
        cases hu
        exact absurd (by simpa using hb) hne
      | succ j =>
        rw [List.getElem?_cons_succ] at hu
        simp only [updateFirstUser, if_pos hb, List.getElem?_cons_succ]
        exact hu
    · cases i with
      | zero =>
        rw [List.getElem?_cons_zero] at hu
        simp only [updateFirstUser, if_neg hb, List.getElem?_cons_zero]
        exact hu
      | succ j =>
        rw [List.getElem?_cons_succ] at hu
        simp only [updateFirstUser, if_neg hb, List.getElem?_cons_succ]
        exact ih j hu

theorem solvedPoints_nil (chs : List Challenge) : solvedPoints chs [] = 0 := by
  simp [solvedPoints]

theorem filter_solved_append (chs : List Challenge) (solved : List String)
    (cid : String) (h : ∀ c ∈ chs, c.id ≠ cid) :
    chs.filter (fun c => decide (c.id ∈ solved ++ [cid])) =
      chs.filter (fun c => decide (c.id ∈ solved)) := by
  induction chs with
  | nil => rfl
  | cons c cs ih =>
    have hc : c.id ≠ cid := h c (List.mem_cons_self c cs)
    have hdec : decide (c.id ∈ solved ++ [cid]) = decide (c.id ∈ solved) := by
      apply decide_eq_decide.mpr
      simp [List.mem_append, hc]
    have ih2 := ih (fun x hx => h x (List.mem_cons_of_mem _ hx))
    simp only [List.filter_cons, hdec, ih2]

theorem find?_cons_eq {α : Type} (p : α → Bool) (a : α) (l : List α) :
    (a :: l).find? p = if p a then some a else l.find? p := by
  by_cases h : p a
  · simp [h]
  · simp [h]

theorem solvedPoints_concat (chs : List Challenge) (solved : List String)
    (cid : String) (ch : Challenge)
    (hfind : chs.find? (fun c => c.id == cid) = some ch)
    (hnd : (chs.map (fun c => c.id)).Nodup) (hnot : cid ∉ solved) :
    solvedPoints chs (solved ++ [cid]) = solvedPoints chs solved + ch.points := by
  induction chs with
  | nil => simp at hfind
  | cons c cs ih =>
    rw [List.map_cons, List.nodup_cons] at hnd
    obtain ⟨hcnot, hndcs⟩ := hnd
    rw [find?_cons_eq] at hfind
    by_cases hb : (c.id == cid) = true
    · rw [if_pos hb] at hfind
      have hch : ch = c := (Option.some.inj hfind).symm
      subst hch
      have hcid : ch.id = cid := by simpa using hb
      have hnone : ∀ x ∈ cs, x.id ≠ cid := by
        intro x hx heq
        have hm : x.id ∈ cs.map (fun c => c.id) := List.mem_map_of_mem _ hx
        rw [heq, ← hcid] at hm
        exact hcnot hm
      have hmemL : decide (ch.id ∈ solved ++ [cid]) = true := by
        simp [hcid]
      have hmemR : decide (ch.id ∈ solved) = false := by
        simp only [decide_eq_false_iff_not]
        rw [hcid]
        exact hnot
      rw [solvedPoints, solvedPoints, List.filter_cons, List.filter_cons,
        hmemL, hmemR, if_pos rfl, if_neg Bool.false_ne_true]
      simp only [List.map_cons, List.sum_cons]
      rw [filter_solved_append cs solved cid hnone]
      omega
    · rw [if_neg hb] at hfind
      have hcid : c.id ≠ cid := by simpa using hb
      have hdec : decide (c.id ∈ solved ++ [cid]) = decide (c.id ∈ solved) := by
        apply decide_eq_decide.mpr
        simp [List.mem_append, hcid]
      have ihv := ih hfind hndcs
      rw [solvedPoints, solvedPoints] at ihv
      rw [solvedPoints, solvedPoints]
      by_cases hs : decide (c.id ∈ solved) = true
      · have hsL : decide (c.id ∈ solved ++ [cid]) = true := by rw [hdec]; exact hs
        rw [@List.filter_cons_of_pos _ (fun c => decide (c.id ∈ solved ++ [cid])) c cs hsL,
          @List.filter_cons_of_pos _ (fun c => decide (c.id ∈ solved)) c cs hs]
        simp only [List.map_cons, List.sum_cons]
        omega
      · have hsL : ¬ (decide (c.id ∈ solved ++ [cid]) = true) := by
          rw [hdec]; exact hs
        rw [@List.filter_cons_of_neg _ (fun c => decide (c.id ∈ solved ++ [cid])) c cs hsL,
          @List.filter_cons_of_neg _ (fun c => decide (c.id ∈ solved)) c cs hs]
        exact ihv

/-- In the no-award branch (wrong flag, or challenge already solved) the
request only appends the audit Submission. -/
theorem submit_flag_else (s : Store) (uid cid flag : String)
    (user : Ctfuser) (ch : Challenge)
    (hu : findUser s uid = some user) (hc : findChallenge s cid = some ch)
    (hcond : (((pyStrip flag) == ch.flag) && !(decide (cid ∈ user.solved))) = false) :
    submit_flag s uid cid flag =
      .ok (⟨(pyStrip flag) == ch.flag, some user⟩,
        { s with submissions :=
            s.submissions ++ [⟨uid, cid, flag, (pyStrip flag) == ch.flag⟩] }) := by
  rw [submit_flag, hu, hc]
  simp only [hcond, Bool.false_eq_true, if_false]

/-- In the award branch the request appends the audit Submission, applies
the `$inc`/`$addToSet` update to the first matching user and reloads. -/
theorem submit_flag_award (s : Store) (uid cid flag : String)
    (user : Ctfuser) (ch : Challenge)
    (hu : findUser s uid = some user) (hc : findChallenge s cid = some ch)
    (hcond : (((pyStrip flag) == ch.flag) && !(decide (cid ∈ user.solved))) = true) :
    submit_flag s uid cid flag =
      .ok (⟨(pyStrip flag) == ch.flag,
          findUser { s with
            users := updateFirstUser s.users uid (fun u =>
              { u with score := u.score + ch.points,
                       solved := addToSet u.solved cid }),
            submissions :=
              s.submissions ++ [⟨uid, cid, flag, (pyStrip flag) == ch.flag⟩] } uid⟩,
        { s with
          users := updateFirstUser s.users uid (fun u =>
            { u with score := u.score + ch.points,
                     solved := addToSet u.solved cid }),
          submissions :=
            s.submissions ++ [⟨uid, cid, flag, (pyStrip flag) == ch.flag⟩] }) := by
  rw [submit_flag, hu, hc]
  simp only [hcond, if_true]

/-- A /submit request never touches the challenge collection. -/
theorem submitStep_challenges (s : Store) (r : String × String × String) :
    (submitStep s r).challenges = s.challenges := by
  obtain ⟨uid, cid, flag⟩ := r
  cases hu : findUser s uid with
  | none =>
    have h1 : submit_flag s uid cid flag = .error .notFound := by
      rw [submit_flag, hu]
    simp [submitStep, h1]
  | some user =>
    cases hc : findChallenge s cid with
    | none =>
      have h1 : submit_flag s uid cid flag = .error .notFound := by
        rw [submit_flag, hu, hc]
      simp [submitStep, h1]
    | some ch =>
      by_cases hcond : (((pyStrip flag) == ch.flag) && !(decide (cid ∈ user.solved))) = true
      · have heq := submit_flag_award s uid cid flag user ch hu hc hcond
        simp [submitStep, heq]
      · have hcond2 : (((pyStrip flag) == ch.flag) && !(decide (cid ∈ user.solved))) = false := by
          simpa using hcond
        have heq := submit_flag_else s uid cid flag user ch hu hc hcond2
        simp [submitStep, heq]

/-- One /submit request preserves the scoring invariant of every user,
provided challenge ids are distinct. -/
theorem userInvariant_submitStep (s : Store) (uid : String)
    (r : String × String × String)
    (hnd : (s.challenges.map (fun c => c.id)).Nodup)
    (hinv : userInvariant s uid) : userInvariant (submitStep s r) uid := by
  obtain ⟨uid2, cid, flag⟩ := r
  cases hu : findUser s uid2 with
  | none =>
    have h1 : submit_flag s uid2 cid flag = .error .notFound := by
      rw [submit_flag, hu]
    simpa [submitStep, h1] using hinv
  | some user =>
    cases hc : findChallenge s cid with
    | none =>
      have h1 : submit_flag s uid2 cid flag = .error .notFound := by
        rw [submit_flag, hu, hc]
      simpa [submitStep, h1] using hinv
    | some ch =>
      by_cases hcond : (((pyStrip flag) == ch.flag) && !(decide (cid ∈ user.solved))) = true
      · have heq := submit_flag_award s uid2 cid flag user ch hu hc hcond
        have hstep : submitStep s (uid2, cid, flag) = { s with
            users := updateFirstUser s.users uid2 (fun u =>
              { u with score := u.score + ch.points,
                       solved := addToSet u.solved cid }),
            submissions :=
              s.submissions ++ [⟨uid2, cid, flag, (pyStrip flag) == ch.flag⟩] } := by
          simp [submitStep, heq]
        rw [hstep]
        intro u hu2
        by_cases hid : uid2 = uid
        · subst hid
          have hu3 : (updateFirstUser s.users uid2 (fun u =>
              { u with score := u.score + ch.points,
                       solved := addToSet u.solved cid })).find?
              (fun u => u.id == uid2) = some u := hu2
          have hself := find?_updateFirstUser_self s.users uid2
            (fun u : Ctfuser =>
              { u with score := u.score + ch.points,
                       solved := addToSet u.solved cid })
            (fun _ => rfl)
          rw [hself] at hu3
          rw [show s.users.find? (fun u => u.id == uid2) = some user from hu] at hu3
          have hueq : u = { user with
                            score := user.score + ch.points,
                            solved := addToSet user.solved cid } :=
            (Option.some.inj hu3).symm
          subst hueq
          have halr : decide (cid ∈ user.solved) = false := by
            rcases Bool.and_eq_true_iff.mp hcond with ⟨_, h2⟩
            simpa using h2
          have hnotmem : cid ∉ user.solved := by simpa using halr
          obtain ⟨hscore, hnodup⟩ := hinv user hu
          have hadd : addToSet user.solved cid = user.solved ++ [cid] := by
            simp [addToSet, hnotmem]
          constructor
          · show user.score + ch.points = solvedPoints s.challenges _
            rw [hadd, solvedPoints_concat s.challenges user.solved cid ch hc hnd hnotmem]
            omega
          · show (addToSet user.solved cid).Nodup
            rw [hadd]
            simp [List.nodup_append, hnodup, hnotmem]
        · have hu3 : (updateFirstUser s.users uid2 (fun u =>
              { u with score := u.score + ch.points,
                       solved := addToSet u.solved cid })).find?
              (fun u => u.id == uid) = some u := hu2
          have hother := find?_updateFirstUser_other s.users uid uid2
            (fun u : Ctfuser =>
              { u with score := u.score + ch.points,
                       solved := addToSet u.solved cid })
            (fun _ => rfl) hid
          rw [hother] at hu3
          exact hinv u hu3
      · have hcond2 : (((pyStrip flag) == ch.flag) && !(decide (cid ∈ user.solved))) = false := by
          simpa using hcond
        have heq := submit_flag_else s uid2 cid flag user ch hu hc hcond2
        have hstep : submitStep s (uid2, cid, flag) = { s with
            submissions :=
              s.submissions ++ [⟨uid2, cid, flag, (pyStrip flag) == ch.flag⟩] } := by
          simp [submitStep, heq]
        rw [hstep]
        intro u hu2
        exact hinv u hu2

/-- A finite sequence of /submit requests preserves the scoring invariant. -/
theorem userInvariant_runSubmits (reqs : List (String × String × String))
    (s : Store) (uid : String)
    (hnd : (s.challenges.map (fun c => c.id)).Nodup)
    (hinv : userInvariant s uid) :
    userInvariant (runSubmits s reqs) uid := by
  induction reqs generalizing s with
  | nil => exact hinv
  | cons r rs ih =>
    rw [runSubmits, List.foldl_cons]
    exact ih (submitStep s r)
      (by rw [submitStep_challenges]; exact hnd)
      (userInvariant_submitStep s uid r hnd hinv)

/-! ### Claims -/

/-- C1: a valid submission whose trimmed flag matches, for a challenge not
yet in the user's solved set, awards exactly the challenge's points, appends
the challenge id (a string) to the solved list, and returns correct=true
together with the freshly reloaded user record. -/
theorem submit_correct_first_awards (s : Store) (uid cid flag : String)
    (user : Ctfuser) (ch : Challenge)
    (hu : findUser s uid = some user) (hc : findChallenge s cid = some ch)
    (hflag : (pyStrip flag) = ch.flag) (hnew : cid ∉ user.solved) :
    ∃ s2 user2,
      submit_flag s uid cid flag = .ok (⟨true, some user2⟩, s2) ∧
      user2 = { user with
                score := user.score + ch.points,
                solved := user.solved ++ [cid] } ∧
      findUser s2 uid = some user2 := by
  have hcor : ((pyStrip flag) == ch.flag) = true := by simp [hflag]
  have halr : decide (cid ∈ user.solved) = false := by simp [hnew]
  have hcond : (((pyStrip flag) == ch.flag) && !(decide (cid ∈ user.solved))) = true := by
    rw [hcor, halr]
    rfl
  have hadd : addToSet user.solved cid = user.solved ++ [cid] := by
    simp [addToSet, hnew]
  have hself := find?_updateFirstUser_self s.users uid
    (fun u : Ctfuser =>
      { u with score := u.score + ch.points,
               solved := addToSet u.solved cid })
    (fun _ => rfl)
  have hfind2 : findUser { s with
      users := updateFirstUser s.users uid (fun u =>
        { u with score := u.score + ch.points,
                 solved := addToSet u.solved cid }),
      submissions :=
        s.submissions ++ [⟨uid, cid, flag, (pyStrip flag) == ch.flag⟩] } uid
      = some { user with
               score := user.score + ch.points,
               solved := user.solved ++ [cid] } := by
    show (updateFirstUser s.users uid _).find? (fun u => u.id == uid) = _
    rw [hself, show s.users.find? (fun u => u.id == uid) = some user from hu]
    simp [hadd]
  refine ⟨_, _, ?_, rfl, hfind2⟩
  rw [submit_flag_award s uid cid flag user ch hu hc hcond, hfind2, hcor]

/-- C2: a valid submission that is wrong, or correct but already solved,
leaves the user collection (hence score and solved) untouched while still
appending a Submission carrying the computed verdict: true for the
duplicate-correct case, false for the incorrect case. -/
theorem submit_no_award_still_logs (s : Store) (uid cid flag : String)
    (user : Ctfuser) (ch : Challenge)
    (hu : findUser s uid = some user) (hc : findChallenge s cid = some ch)
    (h : (pyStrip flag) ≠ ch.flag ∨ cid ∈ user.solved) :
    submit_flag s uid cid flag =
      .ok (⟨(pyStrip flag) == ch.flag, some user⟩,
        { s with submissions :=
            s.submissions ++ [⟨uid, cid, flag, (pyStrip flag) == ch.flag⟩] }) ∧
    ((pyStrip flag) = ch.flag → ((pyStrip flag) == ch.flag) = true) ∧
    ((pyStrip flag) ≠ ch.flag → ((pyStrip flag) == ch.flag) = false) := by
  have hcond : (((pyStrip flag) == ch.flag) && !(decide (cid ∈ user.solved))) = false := by
    rcases h with h | h
    · simp [h]
    · simp [h]
  refine ⟨submit_flag_else s uid cid flag user ch hu hc hcond, ?_, ?_⟩
  · intro he
    simp [he]
  · intro hne
    simp [hne]

/-- C3: every valid submission's verdict is exactly the equality of the
trimmed flag with the stored flag, and the appended Submission stores the
raw, untrimmed flag text together with that verdict. -/
theorem submit_verdict_and_audit (s : Store) (uid cid flag : String)
    (user : Ctfuser) (ch : Challenge)
    (hu : findUser s uid = some user) (hc : findChallenge s cid = some ch) :
    ∃ r s2, submit_flag s uid cid flag = .ok (r, s2) ∧
      r.correct = ((pyStrip flag) == ch.flag) ∧
      (r.correct = true ↔ (pyStrip flag) = ch.flag) ∧
      s2.submissions = s.submissions ++ [⟨uid, cid, flag, r.correct⟩] := by
  by_cases hcond : (((pyStrip flag) == ch.flag) && !(decide (cid ∈ user.solved))) = true
  · refine ⟨_, _, submit_flag_award s uid cid flag user ch hu hc hcond, rfl, ?_, rfl⟩
    simp
  · have hcond2 : (((pyStrip flag) == ch.flag) && !(decide (cid ∈ user.solved))) = false := by
      simpa using hcond
    refine ⟨_, _, submit_flag_else s uid cid flag user ch hu hc hcond2, rfl, ?_, rfl⟩
    simp

/-- C5: a submission naming a missing user or a missing challenge fails
with NotFound, and the store is completely unchanged: nothing is appended
and no user record is mutated. -/
theorem submit_missing_id_fails (s : Store) (uid cid flag : String)
    (h : findUser s uid = none ∨ findChallenge s cid = none) :
    submit_flag s uid cid flag = .error .notFound ∧
    submitStep s (uid, cid, flag) = s := by
  have h1 : submit_flag s uid cid flag = .error .notFound := by
    rcases h with h | h
    · rw [submit_flag, h]
    · cases hu : findUser s uid
      · rw [submit_flag, hu]
      · rw [submit_flag, hu, h]
  exact ⟨h1, by simp [submitStep, h1]⟩

/-- C10: a valid submission changes at most the single user record whose id
is the submitted userId, appends exactly one Submission record, and leaves
the challenge collection and every other user record unchanged. -/
theorem submit_frame (s : Store) (uid cid flag : String)
    (r : SubmitResult) (s2 : Store)
    (h : submit_flag s uid cid flag = .ok (r, s2)) :
    s2.challenges = s.challenges ∧
    s2.submissions = s.submissions ++ [⟨uid, cid, flag, r.correct⟩] ∧
    s2.users.length = s.users.length ∧
    ∀ (i : Nat) (u : Ctfuser), s.users[i]? = some u → u.id ≠ uid →
      s2.users[i]? = some u := by
  cases hu : findUser s uid with
  | none =>
    rw [submit_flag, hu] at h
    cases h
  | some user =>
    cases hc : findChallenge s cid with
    | none =>
      rw [submit_flag, hu, hc] at h
      cases h
    | some ch =>
      by_cases hcond : (((pyStrip flag) == ch.flag) && !(decide (cid ∈ user.solved))) = true
      · rw [submit_flag_award s uid cid flag user ch hu hc hcond] at h
        injection h with h
        injection h with hr hs
        subst hr
        subst hs
        refine ⟨rfl, rfl, length_updateFirstUser _ _ _, ?_⟩
        intro i u hgu hne
        exact getElem?_updateFirstUser s.users uid _ i u hgu hne
      · have hcond2 : (((pyStrip flag) == ch.flag) && !(decide (cid ∈ user.solved))) = false := by
          simpa using hcond
        rw [submit_flag_else s uid cid flag user ch hu hc hcond2] at h
        injection h with h
        injection h with hr hs
        subst hr
        subst hs
        exact ⟨rfl, rfl, rfl, fun i u hgu _ => hgu⟩

/-- C4: a user created by register starts at score 0 with no solves, and
after any finite sequence of sequential /submit requests that user's score
equals the sum of the points of the challenges named by its solved list,
which contains no duplicates (challenge ids assumed distinct, as for
store-generated ObjectIds). -/
theorem registered_user_score_invariant (s : Store)
    (un em pw newId : String) (ou : Option Ctfuser) (s1 : Store)
    (reqs : List (String × String × String))
    (hreg : register s un em pw newId = .ok (ou, s1))
    (hfresh : ∀ u ∈ s.users, u.id ≠ newId)
    (hnd : (s1.challenges.map (fun c => c.id)).Nodup) :
    userInvariant (runSubmits s1 reqs) newId := by
  rw [register] at hreg
  by_cases hany : (s.users.any (fun u => u.email == em)) = true
  · rw [if_pos hany] at hreg
    cases hreg
  · rw [if_neg hany] at hreg
    injection hreg with hreg
    injection hreg with hou hs1
    subst hs1
    apply userInvariant_runSubmits reqs _ newId hnd
    intro u hu
    have hnone : s.users.find? (fun u => u.id == newId) = none := by
      rw [List.find?_eq_none]
      intro x hx
      simp [hfresh x hx]
    have hfind : findUser
        { s with users := s.users ++ [⟨newId, un, em, pw, 0, []⟩] } newId
        = some ⟨newId, un, em, pw, 0, []⟩ := by
      show (s.users ++ [(⟨newId, un, em, pw, 0, []⟩ : Ctfuser)]).find?
        (fun u => u.id == newId) = _
      rw [List.find?_append, hnone]
      simp
    rw [hfind] at hu
    cases hu
    exact ⟨(solvedPoints_nil _).symm, List.nodup_nil⟩

/-- The challenge collection with every flag rewritten arbitrarily. -/
def mapFlags (s : Store) (g : Challenge → String) : Store :=
  { s with challenges := s.challenges.map (fun c => { c with flag := g c }) }

/-- C6: the catalog responses never contain the flag: both endpoints return
the same summaries whatever the stored flags are, and each summary is the
flag-free projection of the stored challenge. -/
theorem catalog_never_reveals_flag (s : Store) (g : Challenge → String)
    (cid : String) :
    list_challenges (mapFlags s g) = list_challenges s ∧
    get_challenge (mapFlags s g) cid = get_challenge s cid ∧
    list_challenges s = s.challenges.map summarize := by
  refine ⟨?_, ?_, rfl⟩
  · rw [list_challenges, list_challenges, mapFlags]
    rw [List.map_map]
    rfl
  · rw [get_challenge, get_challenge]
    have hfc : findChallenge (mapFlags s g) cid =
        (findChallenge s cid).map (fun c => { c with flag := g c }) := by
      show (s.challenges.map
          (fun c : Challenge => ({ c with flag := g c } : Challenge))).find?
        (fun c => c.id == cid) = _
      rw [List.find?_map]
      rfl
    rw [hfc]
    cases findChallenge s cid
    · rfl
    · rfl

/-- C7: register yields Conflict exactly when some existing user has the
same email (exact, case-sensitive string equality); otherwise it inserts
and returns a user with score 0 and an empty solved list. -/
theorem register_conflict_iff (s : Store) (un em pw newId : String)
    (hfresh : ∀ u ∈ s.users, u.id ≠ newId) :
    (register s un em pw newId = .error .conflict ↔ ∃ u ∈ s.users, u.email = em) ∧
    ((∀ u ∈ s.users, u.email ≠ em) →
      register s un em pw newId =
        .ok (some ⟨newId, un, em, pw, 0, []⟩,
          { s with users := s.users ++ [⟨newId, un, em, pw, 0, []⟩] })) := by
  constructor
  · constructor
    · intro herr
      by_cases hany : (s.users.any (fun u => u.email == em)) = true
      · obtain ⟨u, hu, he⟩ := List.any_eq_true.mp hany
        exact ⟨u, hu, by simpa using he⟩
      · rw [register, if_neg hany] at herr
        cases herr
    · intro he
      obtain ⟨u, hu, he⟩ := he
      have hany : (s.users.any (fun u => u.email == em)) = true :=
        List.any_eq_true.mpr ⟨u, hu, by simp [he]⟩
      rw [register, if_pos hany]
  · intro hnoem
    have hany : ¬ ((s.users.any (fun u => u.email == em)) = true) := by
      rw [List.any_eq_true]
      rintro ⟨u, hu, he⟩
      exact hnoem u hu (by simpa using he)
    rw [register, if_neg hany]
    have hnone : s.users.find? (fun u => u.id == newId) = none := by
      rw [List.find?_eq_none]
      intro x hx
      simp [hfresh x hx]
    have hfind : findUser
        { s with users := s.users ++ [⟨newId, un, em, pw, 0, []⟩] } newId
        = some ⟨newId, un, em, pw, 0, []⟩ := by
      show (s.users ++ [(⟨newId, un, em, pw, 0, []⟩ : Ctfuser)]).find?
        (fun u => u.id == newId) = _
      rw [List.find?_append, hnone]
      simp
    rw [hfind]

/-- The user collection with every password rewritten arbitrarily. -/
def mapPasswords (s : Store) (g : Ctfuser → String) : Store :=
  { s with users := s.users.map (fun u => { u with password := g u }) }

/-- C8: for a positive limit, /stats returns at most `limit` rows, sorted
by score descending, each row's `solves` equal to the length of its solved
list, and the response is independent of the stored passwords. -/
theorem stats_sorted_limited (s : Store) (limit : Nat) (hpos : 0 < limit) :
    (stats s limit).length ≤ limit ∧
    List.Pairwise (fun a b : LeaderboardEntry => b.score ≤ a.score) (stats s limit) ∧
    (∀ e ∈ stats s limit, e.solves = e.solved.length) ∧
    (∀ g : Ctfuser → String, stats (mapPasswords s g) limit = stats s limit) := by
  have hlim : ¬ (limit = 0) := Nat.pos_iff_ne_zero.mp hpos
  refine ⟨?_, ?_, ?_, ?_⟩
  · simp only [stats, if_neg hlim]
    rw [List.length_map, List.length_take]
    omega
  · simp only [stats, if_neg hlim]
    rw [List.pairwise_map]
    apply List.Pairwise.sublist (List.take_sublist _ _)
    have hs : (List.mergeSort (s.users.map dropPassword)
        (fun a b => decide (b.score ≤ a.score))).Pairwise
        (fun a b : UserPublic => (decide (b.score ≤ a.score)) = true) := by
      apply List.sorted_mergeSort
      · intro a b c hab hbc
        simp only [decide_eq_true_eq] at hab hbc ⊢
        omega
      · intro a b
        simp only [Bool.or_eq_true, decide_eq_true_eq]
        omega
    exact hs.imp (fun h => of_decide_eq_true h)
  · simp only [stats, if_neg hlim]
    intro e he
    rw [List.mem_map] at he
    obtain ⟨u, hu2, hback⟩ := he
    rw [← hback]
  · intro g
    have husers : (mapPasswords s g).users.map dropPassword =
        s.users.map dropPassword := by
      rw [mapPasswords]
      show (s.users.map (fun u : Ctfuser =>
        ({ u with password := g u } : Ctfuser))).map dropPassword = _
      rw [List.map_map]
      rfl
    simp only [stats, husers]

/-- A nonempty challenge collection makes the startup seeding a no-op. -/
theorem seed_challenges_of_ne (s : Store) (id1 id2 id3 : String)
    (hne : s.challenges ≠ []) : seed_challenges s id1 id2 id3 = s := by
  have hlen : ¬ (s.challenges.length = 0) := by
    simpa [List.length_eq_zero] using hne
  rw [seed_challenges, if_neg hlen]

/-- C9: on an empty challenge collection the startup hook inserts exactly
the three demo challenges; on a nonempty collection it does nothing, so a
second startup never duplicates the seed. -/
theorem seed_exactly_three_idempotent (s : Store) (id1 id2 id3 : String) :
    (s.challenges = [] →
      (seed_challenges s id1 id2 id3).challenges =
        [demoChallenge1 id1, demoChallenge2 id2, demoChallenge3 id3] ∧
      (seed_challenges s id1 id2 id3).challenges.length = 3) ∧
    (s.challenges ≠ [] → seed_challenges s id1 id2 id3 = s) ∧
    seed_challenges (seed_challenges s id1 id2 id3) id1 id2 id3 =
      seed_challenges s id1 id2 id3 := by
  have hthree : s.challenges = [] →
      (seed_challenges s id1 id2 id3).challenges =
        [demoChallenge1 id1, demoChallenge2 id2, demoChallenge3 id3] := by
    intro hempty
    rw [seed_challenges, if_pos (by rw [hempty]; rfl)]
    rw [hempty]
    rfl
  refine ⟨fun he => ⟨hthree he, by rw [hthree he]; rfl⟩,
    seed_challenges_of_ne s id1 id2 id3, ?_⟩
  by_cases hempty : s.challenges = []
  · apply seed_challenges_of_ne
    rw [hthree hempty]
    simp
  · rw [seed_challenges_of_ne s id1 id2 id3 hempty]
    exact seed_challenges_of_ne s id1 id2 id3 hempty

/-! ### Concrete fixtures and witnesses -/

/-- A registered user who has solved nothing yet. -/
def wAlice : Ctfuser := ⟨"u1", "alice", "alice@example.com", "pw1", 0, []⟩

/-- A user who has already solved the warmup challenge. -/
def wBob : Ctfuser := ⟨"u2", "bob", "bob@example.com", "pw2", 50, ["c1"]⟩

/-- A 50-point challenge whose flag is "FLAG". -/
def wWarmup : Challenge := ⟨"c1", "Warmup", "Misc", "Easy", 50, "find it", "FLAG"⟩

/-- A small populated store. -/
def wStore : Store := ⟨[wAlice, wBob], [wWarmup], []⟩

/-- An empty store. -/
def wEmptyStore : Store := ⟨[], [], []⟩

/-- Witness for C1: alice submits " FLAG " (trimmed match) and is awarded. -/
theorem submit_correct_first_awards_witness :
    ∃ s2 user2,
      submit_flag wStore "u1" "c1" " FLAG " = .ok (⟨true, some user2⟩, s2) ∧
      user2 = { wAlice with
                score := wAlice.score + wWarmup.points,
                solved := wAlice.solved ++ ["c1"] } ∧
      findUser s2 "u1" = some user2 :=
  submit_correct_first_awards wStore "u1" "c1" " FLAG " wAlice wWarmup
    (by decide) (by decide) (by decide) (by decide)

/-- Witness for C2: bob re-submits the correct flag for a solved challenge. -/
theorem submit_no_award_still_logs_witness :
    submit_flag wStore "u2" "c1" "FLAG" =
      .ok (⟨(pyStrip "FLAG") == wWarmup.flag, some wBob⟩,
        { wStore with submissions :=
            wStore.submissions ++ [⟨"u2", "c1", "FLAG", (pyStrip "FLAG") == wWarmup.flag⟩] }) ∧
    ((pyStrip "FLAG") = wWarmup.flag → ((pyStrip "FLAG") == wWarmup.flag) = true) ∧
    ((pyStrip "FLAG") ≠ wWarmup.flag → ((pyStrip "FLAG") == wWarmup.flag) = false) :=
  submit_no_award_still_logs wStore "u2" "c1" "FLAG" wBob wWarmup
    (by decide) (by decide) (Or.inr (by decide))

/-- Witness for C3: alice submits a wrong flag; the attempt is audited. -/
theorem submit_verdict_and_audit_witness :
    ∃ r s2, submit_flag wStore "u1" "c1" "wrong" = .ok (r, s2) ∧
      r.correct = ((pyStrip "wrong") == wWarmup.flag) ∧
      (r.correct = true ↔ (pyStrip "wrong") = wWarmup.flag) ∧
      s2.submissions = wStore.submissions ++ [⟨"u1", "c1", "wrong", r.correct⟩] :=
  submit_verdict_and_audit wStore "u1" "c1" "wrong" wAlice wWarmup
    (by decide) (by decide)

/-- Witness for C4: carol registers and then solves the warmup challenge. -/
theorem registered_user_score_invariant_witness :
    userInvariant (runSubmits
      { wStore with users :=
          wStore.users ++ [⟨"u3", "carol", "carol@example.com", "pw3", 0, []⟩] }
      [("u3", "c1", "FLAG")]) "u3" :=
  registered_user_score_invariant wStore "carol" "carol@example.com" "pw3" "u3"
    (some ⟨"u3", "carol", "carol@example.com", "pw3", 0, []⟩)
    { wStore with users :=
        wStore.users ++ [⟨"u3", "carol", "carol@example.com", "pw3", 0, []⟩] }
    [("u3", "c1", "FLAG")]
    (by rfl) (by decide) (by decide)

/-- Witness for C5: a submission naming an unknown user id fails cleanly. -/
theorem submit_missing_id_fails_witness :
    submit_flag wStore "zz" "c1" "FLAG" = .error .notFound ∧
    submitStep wStore ("zz", "c1", "FLAG") = wStore :=
  submit_missing_id_fails wStore "zz" "c1" "FLAG" (Or.inl (by decide))

/-- Witness for C7: registering a fresh email is no conflict. -/
theorem register_conflict_iff_witness :
    (register wStore "eve" "eve@example.com" "pw" "u9" = .error .conflict ↔
      ∃ u ∈ wStore.users, u.email = "eve@example.com") ∧
    ((∀ u ∈ wStore.users, u.email ≠ "eve@example.com") →
      register wStore "eve" "eve@example.com" "pw" "u9" =
        .ok (some ⟨"u9", "eve", "eve@example.com", "pw", 0, []⟩,
          { wStore with users :=
              wStore.users ++ [⟨"u9", "eve", "eve@example.com", "pw", 0, []⟩] })) :=
  register_conflict_iff wStore "eve" "eve@example.com" "pw" "u9" (by decide)

/-- Witness for C8: the leaderboard of the sample store with limit 1. -/
theorem stats_sorted_limited_witness :
    (stats wStore 1).length ≤ 1 ∧
    List.Pairwise (fun a b : LeaderboardEntry => b.score ≤ a.score) (stats wStore 1) ∧
    (∀ e ∈ stats wStore 1, e.solves = e.solved.length) ∧
    (∀ g : Ctfuser → String, stats (mapPasswords wStore g) 1 = stats wStore 1) :=
  stats_sorted_limited wStore 1 (by decide)

/-- Witness for C9: seeding an empty store, then seeding again. -/
theorem seed_exactly_three_idempotent_witness :
    (seed_challenges wEmptyStore "d1" "d2" "d3").challenges =
      [demoChallenge1 "d1", demoChallenge2 "d2", demoChallenge3 "d3"] ∧
    (seed_challenges wEmptyStore "d1" "d2" "d3").challenges.length = 3 ∧
    seed_challenges (seed_challenges wEmptyStore "d1" "d2" "d3") "d1" "d2" "d3" =
      seed_challenges wEmptyStore "d1" "d2" "d3" := by
  have h := seed_exactly_three_idempotent wEmptyStore "d1" "d2" "d3"
  exact ⟨(h.1 rfl).1, (h.1 rfl).2, h.2.2⟩

/-- Alice's record after solving the warmup challenge. -/
def wAliceSolved : Ctfuser := ⟨"u1", "alice", "alice@example.com", "pw1", 50, ["c1"]⟩

/-- The sample store after alice's correct submission. -/
def wStoreAfter : Store :=
  ⟨[wAliceSolved, wBob], [wWarmup], [⟨"u1", "c1", "FLAG", true⟩]⟩

/-- Witness for C10: alice's correct submission touches only her record and
appends one Submission. -/
theorem submit_frame_witness :
    wStoreAfter.challenges = wStore.challenges ∧
    wStoreAfter.submissions = wStore.submissions ++
      [⟨"u1", "c1", "FLAG", (SubmitResult.mk true (some wAliceSolved)).correct⟩] ∧
    wStoreAfter.users.length = wStore.users.length ∧
    (∀ (i : Nat) (u : Ctfuser), wStore.users[i]? = some u → u.id ≠ "u1" →
      wStoreAfter.users[i]? = some u) :=
  submit_frame wStore "u1" "c1" "FLAG" ⟨true, some wAliceSolved⟩ wStoreAfter (by rfl)
